import Mathlib

/-!
# Engrave configurator — verification of the core scene model

Shallow embedding of the core of `web/app/configurator/page.tsx`:
the scene item model, the millimeter/device unit converter, the
containment validator, the gesture-commit resolver and the SVG exporter.
All geometric quantities are embedded as exact rationals (the source uses
JS numbers; every constant and operation appearing in the properties below
is exactly representable, so the rational embedding is faithful there).
Strings are embedded as Lean `String`s / `List Char`.
-/

namespace Configurator

/-- Constant `MM_TO_PX = 4` — the fixed device-unit factor of the source. -/
def MM_TO_PX : ℚ := 4

/-- The `engraveMm` record of the product configuration. -/
structure EngraveMm where
  x : ℚ
  y : ℚ
  w : ℚ
  h : ℚ
  margin : ℚ
deriving Repr, DecidableEq

/-- The `PRODUCT` configuration constant. -/
structure ProductCfg where
  code : String
  canvasW : ℚ
  canvasH : ℚ
  engraveMm : EngraveMm
  minFontMm : ℚ
  maxFontMm : ℚ
deriving Repr, DecidableEq

/-- Constant `PRODUCT` — the hard-coded product geometry of the source. -/
def PRODUCT : ProductCfg :=
  { code := "PRKENKO_01"
    canvasW := 300
    canvasH := 200
    engraveMm := { x := 70, y := 40, w := 160, h := 90, margin := 5 }
    minFontMm := 3
    maxFontMm := 40 }

/-- The default color constant `BLACK`. -/
def BLACK : String := "#000000"

/-- The `fontStyle` union type `"normal" | "bold" | "italic" | "bold italic"`. -/
inductive FontStyle
  | normal
  | bold
  | italic
  | boldItalic
deriving Repr, DecidableEq

/-- Test `fontStyle.includes("bold")` of the source. -/
def FontStyle.includesBold : FontStyle → Bool
  | .bold => true
  | .boldItalic => true
  | _ => false

/-- Test `fontStyle.includes("italic")` of the source. -/
def FontStyle.includesItalic : FontStyle → Bool
  | .italic => true
  | .boldItalic => true
  | _ => false

/-- The `align` union type `"left" | "center" | "right"`. -/
inductive Align
  | left
  | center
  | right
deriving Repr, DecidableEq

/-- The text-anchor ternary of the exporter:
`it.align === "left" ? "start" : it.align === "center" ? "middle" : "end"`. -/
def Align.anchor : Align → String
  | .left => "start"
  | .center => "middle"
  | .right => "end"

/-- Union `OrnamentKind = "heart" | "wreath" | "star"`. -/
inductive OrnamentKind
  | heart
  | wreath
  | star
deriving Repr, DecidableEq

/-- The variant payload of the `Item` tagged union (fields beyond `BaseItem`). -/
inductive ItemData
  | text (text : String) (fontFamily : String) (fontSizeMm : ℚ)
      (fontStyle : FontStyle) (align : Align) (fill : Option String)
  | rect (w : ℚ) (h : ℚ) (fillEnabled : Bool) (fill : Option String)
  | circle (r : ℚ) (fillEnabled : Bool) (fill : Option String)
  | line (x2 : ℚ) (y2 : ℚ)
  | ornament (kind : OrnamentKind) (scaleMm : ℚ)
deriving Repr, DecidableEq

/-- An `Item`: the shared `BaseItem` fields plus the variant payload. -/
structure Item where
  id : String
  x : ℚ
  y : ℚ
  rotation : Option ℚ := none
  stroke : Option String := none
  strokeWidthMm : Option ℚ := none
  data : ItemData
deriving Repr, DecidableEq

/-- The `type` discriminator string of an item. -/
def ItemData.typeStr : ItemData → String
  | .text .. => "text"
  | .rect .. => "rect"
  | .circle .. => "circle"
  | .line .. => "line"
  | .ornament .. => "ornament"

/-- Conversion `mm(v) = v * MM_TO_PX` — millimeters to device units. -/
def mm (v : ℚ) : ℚ := v * MM_TO_PX

/-- Conversion `pxToMm(v) = v / MM_TO_PX` — device units back to millimeters. -/
def pxToMm (v : ℚ) : ℚ := v / MM_TO_PX

/-- Saturating `clamp(v, min, max) = Math.max(min, Math.min(max, v))`. -/
def clamp (v lo hi : ℚ) : ℚ := max lo (min hi v)

/-- Function `withinEngraveArea` — the per-item containment check against the legal
bounds, the engrave region inset by its margin on all sides. -/
def withinEngraveArea (it : Item) : Bool :=
  let a := PRODUCT.engraveMm
  let ax1 := a.x + a.margin
  let ay1 := a.y + a.margin
  let ax2 := a.x + a.w - a.margin
  let ay2 := a.y + a.h - a.margin
  match it.data with
  | .text _ _ _ _ _ _ =>
      decide (it.x ≥ ax1) && decide (it.y ≥ ay1) && decide (it.x ≤ ax2) && decide (it.y ≤ ay2)
  | .rect w h _ _ =>
      decide (it.x ≥ ax1) && decide (it.y ≥ ay1) && decide (it.x + w ≤ ax2) && decide (it.y + h ≤ ay2)
  | .circle r _ _ =>
      decide (it.x - r ≥ ax1) && decide (it.y - r ≥ ay1) && decide (it.x + r ≤ ax2) && decide (it.y + r ≤ ay2)
  | .line x2 y2 =>
      let minX := min it.x x2
      let maxX := max it.x x2
      let minY := min it.y y2
      let maxY := max it.y y2
      decide (minX ≥ ax1) && decide (minY ≥ ay1) && decide (maxX ≤ ax2) && decide (maxY ≤ ay2)
  | .ornament _ size =>
      decide (it.x ≥ ax1) && decide (it.y ≥ ay1) && decide (it.x + size ≤ ax2) && decide (it.y + size ≤ ay2)

/-- The apostrophe character (U+0027), written by code point. -/
def apos : Char := Char.ofNat 39

/-- JS `String.replaceAll` with a single-character pattern: each occurrence of
that character is replaced by the replacement string; embedded over the
character list, where this is exactly a flat map. -/
def replaceAllCh (pat : Char) (rep : List Char) (l : List Char) : List Char :=
  l.flatMap (fun c => if c = pat then rep else [c])

/-- Function `escapeXml` over the character list: the source's five chained
`replaceAll` calls, innermost (applied first) being the ampersand. -/
def escapeXmlL (l : List Char) : List Char :=
  replaceAllCh apos "&apos;".toList
    (replaceAllCh '"' "&quot;".toList
      (replaceAllCh '>' "&gt;".toList
        (replaceAllCh '<' "&lt;".toList
          (replaceAllCh '&' "&amp;".toList l))))

/-- Function `escapeXml(s)` — the markup-escaping function of the source. -/
def escapeXml (s : String) : String := (escapeXmlL s.toList).asString

/-- Renders a number for template-literal interpolation. An integer value is
rendered as its decimal integer string, matching the JS output; a non-integer
rational is rendered in exact `num/den` form (the JS source would print a
decimal expansion; every property below that inspects a rendered number does
so only at integer values, where the two agree). -/
def numStr (q : ℚ) : String :=
  if q.den = 1 then toString q.num else toString q.num ++ "/" ++ toString q.den

/-- The `{ok, problems}` result of `validateAll`. -/
structure ValidationResult where
  ok : Bool
  problems : List String
deriving Repr, DecidableEq

/-- The loop body of `validateAll`: pushes the containment finding when the
item fails the containment check, then the minimum-font finding when the item
is a text item below the configured minimum. -/
def validateStep (acc : List String) (it : Item) : List String :=
  let acc1 :=
    if withinEngraveArea it then acc
    else acc ++ ["Prvek mimo gravírovací plochu (typ=" ++ it.data.typeStr ++ ")."]
  match it.data with
  | .text _ _ fontSizeMm _ _ _ =>
      if fontSizeMm < PRODUCT.minFontMm then
        acc1 ++ ["Text je příliš malý (min " ++ numStr PRODUCT.minFontMm ++ " mm)."]
      else acc1
  | _ => acc1

/-- Function `validateAll()` — walks the scene in order, collecting one containment
finding per out-of-bounds item and one minimum-font finding per too-small
text item; `ok` is `problems.length === 0`. -/
def validateAll (items : List Item) : ValidationResult :=
  let probs := items.foldl validateStep []
  { ok := probs.length == 0, problems := probs }

/-- The findings a single item contributes to `validateAll`, in order:
the containment finding, then the minimum-font finding (used to state the
validator theorems; equal to what `validateStep` appends). -/
def itemFindings (it : Item) : List String :=
  (if withinEngraveArea it then []
   else ["Prvek mimo gravírovací plochu (typ=" ++ it.data.typeStr ++ ")."])
    ++ (match it.data with
        | .text _ _ fontSizeMm _ _ _ =>
            if fontSizeMm < PRODUCT.minFontMm then
              ["Text je příliš malý (min " ++ numStr PRODUCT.minFontMm ++ " mm)."]
            else []
        | _ => [])

/-- One entry of the `ORNAMENTS` outline library. -/
structure OrnamentDef where
  kind : OrnamentKind
  label : String
  path : String
deriving Repr, DecidableEq

/-- The `ORNAMENTS` constant — the fixed normalized outline library. -/
def ORNAMENTS : List OrnamentDef :=
  [ { kind := .heart, label := "Srdce",
      path := "M 10 30 C 10 10 30 10 30 20 C 30 10 50 10 50 30 C 50 45 30 55 30 55 C 30 55 10 45 10 30 Z" }
  , { kind := .wreath, label := "Věnec",
      path := "M 50 30 A 20 20 0 1 1 49.9 30 Z M 50 30 A 12 12 0 1 0 49.9 30 Z" }
  , { kind := .star, label := "Hvězda",
      path := "M 30 5 L 37 22 L 55 22 L 40 33 L 46 50 L 30 40 L 14 50 L 20 33 L 5 22 L 23 22 Z" } ]

/-- The stroke attribute of the exporter:
emitted only when `(it.strokeWidthMm ?? 0) > 0`, with stroke color
`it.stroke ?? BLACK`. -/
def swAttr (it : Item) : String :=
  if 0 < it.strokeWidthMm.getD 0 then
    " stroke=\"" ++ it.stroke.getD BLACK ++ "\" stroke-width=\"" ++ numStr (it.strokeWidthMm.getD 0) ++ "\""
  else ""

/-- The rotation attribute of the exporter: a rotate transform about the
item's own anchor when `it.rotation` is truthy (present and nonzero),
otherwise the empty string. -/
def rotAttr (it : Item) : String :=
  match it.rotation with
  | none => ""
  | some r =>
      if r = 0 then ""
      else " transform=\"rotate(" ++ numStr r ++ " " ++ numStr it.x ++ " " ++ numStr it.y ++ ")\""

/-- The element(s) the export loop body pushes for one item (the five type
tests of the loop are mutually exclusive, so each item contributes its one
variant's primitive). The ornament branch looks its outline up in
`ORNAMENTS` (non-null asserted in the source; the `getD` default is never
reached since all three kinds are present). -/
def exportItem (it : Item) : List String :=
  match it.data with
  | .text text fontFamily fontSizeMm fontStyle align fill =>
      [ "<text x=\"" ++ numStr it.x ++ "\" y=\"" ++ numStr it.y
          ++ "\" font-family=\"" ++ escapeXml fontFamily
          ++ "\" font-size=\"" ++ numStr fontSizeMm
          ++ "\" font-style=\"" ++ (if fontStyle.includesItalic then "italic" else "normal")
          ++ "\" font-weight=\"" ++ (if fontStyle.includesBold then "bold" else "normal")
          ++ "\" text-anchor=\"" ++ align.anchor ++ "\""
          ++ (" fill=\"" ++ fill.getD BLACK ++ "\"")
          ++ swAttr it ++ rotAttr it ++ ">" ++ escapeXml text ++ "</text>" ]
  | .rect w h fillEnabled fill =>
      [ "<rect x=\"" ++ numStr it.x ++ "\" y=\"" ++ numStr it.y
          ++ "\" width=\"" ++ numStr w ++ "\" height=\"" ++ numStr h ++ "\""
          ++ (if fillEnabled then " fill=\"" ++ fill.getD BLACK ++ "\"" else " fill=\"none\"")
          ++ swAttr it ++ rotAttr it ++ " />" ]
  | .circle r fillEnabled fill =>
      [ "<circle cx=\"" ++ numStr it.x ++ "\" cy=\"" ++ numStr it.y ++ "\" r=\"" ++ numStr r ++ "\""
          ++ (if fillEnabled then " fill=\"" ++ fill.getD BLACK ++ "\"" else " fill=\"none\"")
          ++ swAttr it ++ " />" ]
  | .line x2 y2 =>
      [ "<line x1=\"" ++ numStr it.x ++ "\" y1=\"" ++ numStr it.y
          ++ "\" x2=\"" ++ numStr x2 ++ "\" y2=\"" ++ numStr y2 ++ "\"" ++ swAttr it ++ " />" ]
  | .ornament kind scaleMm =>
      let odef := (ORNAMENTS.find? (fun o => o.kind == kind)).getD { kind := kind, label := "", path := "" }
      let scale := scaleMm / 60
      [ "<path d=\"" ++ odef.path ++ "\" fill=\"none\"" ++ swAttr it
          ++ " transform=\"translate(" ++ numStr it.x ++ " " ++ numStr it.y ++ ") scale(" ++ numStr scale ++ ")\" />" ]

/-- Function `exportSvgMm()` — the full document: the fixed-size svg header around the
parts of all items in scene order, joined and trimmed as in the source. -/
def exportSvgMm (items : List Item) : String :=
  let parts := items.flatMap exportItem
  ("\n<svg xmlns=\"http://www.w3.org/2000/svg\"\n  width=\"" ++ numStr PRODUCT.canvasW
    ++ "mm\"\n  height=\"" ++ numStr PRODUCT.canvasH
    ++ "mm\"\n  viewBox=\"0 0 " ++ numStr PRODUCT.canvasW ++ " " ++ numStr PRODUCT.canvasH
    ++ "\">\n  " ++ String.intercalate "\n  " parts ++ "\n</svg>").trim

/-- Function `updateSelected(patch)` — maps the patch over the item whose id equals
the currently selected id; a null selection is a no-op. The record-spread
patch of the source is embedded as a function applied to the matching item. -/
def updateSelected (items : List Item) (selectedId : Option String) (patch : Item → Item) : List Item :=
  match selectedId with
  | none => items
  | some sel => items.map (fun it => if it.id == sel then patch it else it)

/-- Function `commitTransform(node)` — finds the item carrying the node's id, computes
the per-variant clamped size patch from the gesture scales, and stores it via
`updateSelected`. The source also resets the node's on-screen scale to 1
(view state, not part of the scene model). A variant's patch applied to an
item of a different variant leaves it unchanged (the source only ever applies
the patch to the found item itself, through the selection). A line item, or a
node id matching no item, changes nothing. -/
def commitTransform (items : List Item) (selectedId : Option String) (nodeId : String) (sX sY : ℚ) : List Item :=
  match items.find? (fun i => i.id == nodeId) with
  | none => items
  | some item =>
      match item.data with
      | .rect w h _ _ =>
          updateSelected items selectedId (fun it =>
            match it.data with
            | .rect _ _ fe f => { it with data := .rect (clamp (w * sX) 1 500) (clamp (h * sY) 1 500) fe f }
            | _ => it)
      | .circle r _ _ =>
          updateSelected items selectedId (fun it =>
            match it.data with
            | .circle _ fe f => { it with data := .circle (clamp (r * max sX sY) 1 500) fe f }
            | _ => it)
      | .text _ _ fontSizeMm _ _ _ =>
          updateSelected items selectedId (fun it =>
            match it.data with
            | .text t ff _ st al fl =>
                { it with data := .text t ff (clamp (fontSizeMm * max sX sY) PRODUCT.minFontMm PRODUCT.maxFontMm) st al fl }
            | _ => it)
      | .ornament _ scaleMm =>
          updateSelected items selectedId (fun it =>
            match it.data with
            | .ornament k _ => { it with data := .ornament k (clamp (scaleMm * max sX sY) 5 120) }
            | _ => it)
      | .line _ _ => items

/-- The initial scene's default text item (the `useState` initializer); the
`uuid()`-generated id is passed in. -/
def initialTextItem (id : String) : Item :=
  { id := id
    x := PRODUCT.engraveMm.x + 10
    y := PRODUCT.engraveMm.y + 25
    rotation := none
    stroke := none
    strokeWidthMm := some 0
    data := .text "Lenka & Tomáš" "Playfair Display" 12 .bold .left (some BLACK) }

/-- The item `addText()` appends. -/
def addTextItem (id : String) : Item :=
  { id := id
    x := PRODUCT.engraveMm.x + PRODUCT.engraveMm.margin + 5
    y := PRODUCT.engraveMm.y + PRODUCT.engraveMm.margin + 15
    rotation := none
    stroke := none
    strokeWidthMm := some 0
    data := .text "Napište vlastní text" "Inter" 10 .normal .left (some BLACK) }

/-- The item `addRect()` appends. -/
def addRectItem (id : String) : Item :=
  { id := id
    x := PRODUCT.engraveMm.x + 10
    y := PRODUCT.engraveMm.y + 10
    rotation := none
    stroke := some BLACK
    strokeWidthMm := some (2/5)
    data := .rect 40 20 false (some BLACK) }

/-- The item `addCircle()` appends. -/
def addCircleItem (id : String) : Item :=
  { id := id
    x := PRODUCT.engraveMm.x + 30
    y := PRODUCT.engraveMm.y + 30
    rotation := none
    stroke := some BLACK
    strokeWidthMm := some (2/5)
    data := .circle 12 false (some BLACK) }

/-- The item `addLine()` appends. -/
def addLineItem (id : String) : Item :=
  { id := id
    x := PRODUCT.engraveMm.x + 10
    y := PRODUCT.engraveMm.y + 60
    rotation := none
    stroke := some BLACK
    strokeWidthMm := some (3/5)
    data := .line (PRODUCT.engraveMm.x + 90) (PRODUCT.engraveMm.y + 60) }

/-- The item `addOrnament(kind)` appends. -/
def addOrnamentItem (id : String) (kind : OrnamentKind) : Item :=
  { id := id
    x := PRODUCT.engraveMm.x + 10
    y := PRODUCT.engraveMm.y + 10
    rotation := none
    stroke := some BLACK
    strokeWidthMm := some (2/5)
    data := .ornament kind 25 }

/-- Spec-side containment condition, written from the specification's words
for the refinement comparison with `withinEngraveArea`: each corner / extreme
point named by the spec must fall within the legal bounds, with all
comparisons inclusive. -/
def specContained (it : Item) : Prop :=
  let ax1 : ℚ := PRODUCT.engraveMm.x + PRODUCT.engraveMm.margin
  let ay1 : ℚ := PRODUCT.engraveMm.y + PRODUCT.engraveMm.margin
  let ax2 : ℚ := PRODUCT.engraveMm.x + PRODUCT.engraveMm.w - PRODUCT.engraveMm.margin
  let ay2 : ℚ := PRODUCT.engraveMm.y + PRODUCT.engraveMm.h - PRODUCT.engraveMm.margin
  let inB : ℚ → ℚ → Prop := fun px py => ax1 ≤ px ∧ px ≤ ax2 ∧ ay1 ≤ py ∧ py ≤ ay2
  match it.data with
  | .text _ _ _ _ _ _ => inB it.x it.y
  | .rect w h _ _ => inB it.x it.y ∧ inB (it.x + w) (it.y + h)
  | .circle r _ _ => inB (it.x - r) (it.y - r) ∧ inB (it.x + r) (it.y + r)
  | .line x2 y2 => inB (min it.x x2) (min it.y y2) ∧ inB (max it.x x2) (max it.y y2)
  | .ornament _ size => inB it.x it.y ∧ inB (it.x + size) (it.y + size)

/-- The size attributes of an item are nonnegative (always true of items the
UI can produce: sizes are clamped to positive ranges at every mutation). -/
def nonnegSize (it : Item) : Prop :=
  match it.data with
  | .rect w h _ _ => 0 ≤ w ∧ 0 ≤ h
  | .circle r _ _ => 0 ≤ r
  | .ornament _ size => 0 ≤ size
  | _ => True

/-- The same item with its rotation attribute removed. -/
def clearRotation (it : Item) : Item := { it with rotation := none }

/-- Single-pass per-character escape map: each of the five reserved markup
characters to its entity, every other character unchanged. The reference the
chained replacement is compared against. -/
def escChar (c : Char) : List Char :=
  if c = '&' then "&amp;".toList
  else if c = '<' then "&lt;".toList
  else if c = '>' then "&gt;".toList
  else if c = '"' then "&quot;".toList
  else if c = apos then "&apos;".toList
  else [c]

/-- Left-to-right well-escapedness check: the character list contains no
raw occurrence of the four characters that never survive escaping, and every
ampersand is the start of one of the five entities. -/
def wellEscaped : List Char → Bool
  | [] => true
  | c :: rest =>
      if c = '&' then
        if "amp;".toList.isPrefixOf rest then wellEscaped (rest.drop 4)
        else if "lt;".toList.isPrefixOf rest then wellEscaped (rest.drop 3)
        else if "gt;".toList.isPrefixOf rest then wellEscaped (rest.drop 3)
        else if "quot;".toList.isPrefixOf rest then wellEscaped (rest.drop 5)
        else if "apos;".toList.isPrefixOf rest then wellEscaped (rest.drop 5)
        else false
      else
        !(c = '<' || c = '>' || c = '"' || c = apos) && wellEscaped rest
termination_by l => l.length
decreasing_by all_goals (simp [List.length_drop]; try omega)

/-- Whether `pat` occurs as a contiguous substring of the second list. -/
def hasSub (pat : List Char) : List Char → Bool
  | [] => pat.isEmpty
  | c :: rest => pat.isPrefixOf (c :: rest) || hasSub pat rest

/-- A rectangle with its top-left corner exactly on the legal boundary
(ax1, ay1) = (75, 45) and otherwise inside. -/
def rectAtCorner : Item :=
  { id := "corner", x := 75, y := 45, data := .rect 40 20 false none }

/-- The same rectangle moved 0.01 mm outward on both axes. -/
def rectNudgedOut : Item :=
  { id := "corner", x := 7499/100, y := 4499/100, data := .rect 40 20 false none }

/-- A rectangle with a negative width: accepted by `withinEngraveArea`
(which checks only x ≥ ax1 and x + w ≤ ax2) even though its second corner
x + w = 65 lies left of the legal bound ax1 = 75. -/
def rectNegW : Item :=
  { id := "neg", x := 75, y := 45, data := .rect (-10) 10 false none }

/-- A rectangle item carrying a nonzero rotation attribute. -/
def crectRot : Item :=
  { id := "cr", x := 80, y := 50, rotation := some 45, data := .rect 40 20 false none }

/-- A text item that is both outside the legal bounds (anchor left of ax1)
and below the minimum font size (2 mm < 3 mm). -/
def badText : Item :=
  { id := "t", x := 0, y := 0, data := .text "hi" "Arial" 2 .normal .left none }

/-- An ornament carrying a nonzero rotation attribute. -/
def ornWithRot : Item :=
  { id := "orn", x := 80, y := 50, rotation := some 45, stroke := some BLACK,
    strokeWidthMm := some 0, data := .ornament .heart 60 }

/-! ## Shared helper lemmas -/

theorem clamp_le_left (v lo hi : ℚ) : lo ≤ clamp v lo hi :=
  le_max_left lo (min hi v)

theorem clamp_le_right (v lo hi : ℚ) (h : lo ≤ hi) : clamp v lo hi ≤ hi :=
  max_le h (min_le_left hi v)

theorem clamp_eq_self (v lo hi : ℚ) (h1 : lo ≤ v) (h2 : v ≤ hi) : clamp v lo hi = v := by
  unfold clamp
  rw [min_eq_right h2, max_eq_right h1]

theorem clamp_clamp_one (v lo hi : ℚ) (h : lo ≤ hi) :
    clamp (clamp v lo hi * 1) lo hi = clamp v lo hi := by
  rw [mul_one]
  exact clamp_eq_self _ _ _ (clamp_le_left v lo hi) (clamp_le_right v lo hi h)

theorem flatMap_comp (l : List Char) (f g : Char → List Char) :
    (l.flatMap f).flatMap g = l.flatMap (fun c => (f c).flatMap g) := by
  induction l with
  | nil => rfl
  | cons c t ih => simp [ih]

theorem find?_middle (pre post : List Item) (it : Item) (nodeId : String)
    (hpre : ∀ j ∈ pre, (j.id == nodeId) = false) (hit : (it.id == nodeId) = true) :
    (pre ++ it :: post).find? (fun i => i.id == nodeId) = some it := by
  induction pre with
  | nil => simp [List.find?, hit]
  | cons p t ih =>
      have hp := hpre p (by simp)
      simp only [List.cons_append, List.find?, hp]
      exact ih (fun j hj => hpre j (by simp [hj]))

theorem updateSelected_middle (pre post : List Item) (it : Item) (patch : Item → Item)
    (hpre : ∀ j ∈ pre, (j.id == it.id) = false) (hpost : ∀ j ∈ post, (j.id == it.id) = false) :
    updateSelected (pre ++ it :: post) (some it.id) patch = pre ++ patch it :: post := by
  show (pre ++ it :: post).map (fun j => if (j.id == it.id) = true then patch j else j)
      = pre ++ patch it :: post
  rw [List.map_append, List.map_cons]
  have h1 : pre.map (fun j => if (j.id == it.id) = true then patch j else j) = pre := by
    rw [List.map_congr_left (g := id) (fun j hj => by simp [hpre j hj]), List.map_id]
  have h2 : post.map (fun j => if (j.id == it.id) = true then patch j else j) = post := by
    rw [List.map_congr_left (g := id) (fun j hj => by simp [hpost j hj]), List.map_id]
  simp only [beq_self_eq_true, if_pos, h1, h2]

theorem commit_rect_eq (pre post : List Item) (it : Item) (w h : ℚ) (fe : Bool)
    (f : Option String) (sX sY : ℚ)
    (hpre : ∀ j ∈ pre, (j.id == it.id) = false)
    (hpost : ∀ j ∈ post, (j.id == it.id) = false)
    (hdata : it.data = .rect w h fe f) :
    commitTransform (pre ++ it :: post) (some it.id) it.id sX sY
      = pre ++ { it with data := .rect (clamp (w * sX) 1 500) (clamp (h * sY) 1 500) fe f } :: post := by
  unfold commitTransform
  rw [find?_middle pre post it it.id hpre (beq_self_eq_true _)]
  simp only [hdata]
  rw [updateSelected_middle pre post it _ hpre hpost]
  simp [hdata]

theorem commit_circle_eq (pre post : List Item) (it : Item) (r : ℚ) (fe : Bool)
    (f : Option String) (sX sY : ℚ)
    (hpre : ∀ j ∈ pre, (j.id == it.id) = false)
    (hpost : ∀ j ∈ post, (j.id == it.id) = false)
    (hdata : it.data = .circle r fe f) :
    commitTransform (pre ++ it :: post) (some it.id) it.id sX sY
      = pre ++ { it with data := .circle (clamp (r * max sX sY) 1 500) fe f } :: post := by
  unfold commitTransform
  rw [find?_middle pre post it it.id hpre (beq_self_eq_true _)]
  simp only [hdata]
  rw [updateSelected_middle pre post it _ hpre hpost]
  simp [hdata]

theorem commit_text_eq (pre post : List Item) (it : Item) (t ff : String) (fs : ℚ)
    (st : FontStyle) (al : Align) (fl : Option String) (sX sY : ℚ)
    (hpre : ∀ j ∈ pre, (j.id == it.id) = false)
    (hpost : ∀ j ∈ post, (j.id == it.id) = false)
    (hdata : it.data = .text t ff fs st al fl) :
    commitTransform (pre ++ it :: post) (some it.id) it.id sX sY
      = pre ++ { it with
          data := .text t ff (clamp (fs * max sX sY) PRODUCT.minFontMm PRODUCT.maxFontMm) st al fl } :: post := by
  unfold commitTransform
  rw [find?_middle pre post it it.id hpre (beq_self_eq_true _)]
  simp only [hdata]
  rw [updateSelected_middle pre post it _ hpre hpost]
  simp [hdata]

theorem commit_ornament_eq (pre post : List Item) (it : Item) (k : OrnamentKind) (s : ℚ)
    (sX sY : ℚ)
    (hpre : ∀ j ∈ pre, (j.id == it.id) = false)
    (hpost : ∀ j ∈ post, (j.id == it.id) = false)
    (hdata : it.data = .ornament k s) :
    commitTransform (pre ++ it :: post) (some it.id) it.id sX sY
      = pre ++ { it with data := .ornament k (clamp (s * max sX sY) 5 120) } :: post := by
  unfold commitTransform
  rw [find?_middle pre post it it.id hpre (beq_self_eq_true _)]
  simp only [hdata]
  rw [updateSelected_middle pre post it _ hpre hpost]
  simp [hdata]

theorem commit_line_eq (items : List Item) (selectedId : Option String) (nodeId : String)
    (sX sY : ℚ) (it : Item) (x2 y2 : ℚ)
    (hfind : items.find? (fun i => i.id == nodeId) = some it)
    (hdata : it.data = .line x2 y2) :
    commitTransform items selectedId nodeId sX sY = items := by
  unfold commitTransform
  rw [hfind]
  simp [hdata]

/-! ## C7 — unit round trip -/

/-- C7: for every millimeter value v ≥ 0, `pxToMm (mm v) = v`; the
conversions are `v * K` and `d / K` for the fixed constant `K = MM_TO_PX = 4`.
Both functions are total Lean functions, so there is no failure mode. -/
theorem unit_roundTrip (v : ℚ) (hv : 0 ≤ v) :
    pxToMm (mm v) = v ∧ mm v = v * MM_TO_PX ∧ pxToMm v = v / MM_TO_PX ∧ MM_TO_PX = 4 := by
  refine ⟨?_, rfl, rfl, rfl⟩
  unfold pxToMm mm MM_TO_PX
  norm_num

/-- Witness for C7 at v = 3. -/
theorem unit_roundTrip_w :
    pxToMm (mm 3) = 3 ∧ mm 3 = 3 * MM_TO_PX ∧ pxToMm 3 = 3 / MM_TO_PX ∧ MM_TO_PX = 4 :=
  unit_roundTrip 3 (by norm_num)

/-! ## C6 — all add operations create items inside the legal bounds -/

/-- C6: with the configured product geometry, the initial default text item
and the item created by each add operation (for every generated id and every
ornament kind) satisfy the containment check at creation. -/
theorem addItems_within_area (id : String) (kind : OrnamentKind) :
    withinEngraveArea (initialTextItem id) = true ∧
    withinEngraveArea (addTextItem id) = true ∧
    withinEngraveArea (addRectItem id) = true ∧
    withinEngraveArea (addCircleItem id) = true ∧
    withinEngraveArea (addLineItem id) = true ∧
    withinEngraveArea (addOrnamentItem id kind) = true := by
  refine ⟨?_, ?_, ?_, ?_, ?_, ?_⟩ <;>
    simp [withinEngraveArea, initialTextItem, addTextItem, addRectItem, addCircleItem,
      addLineItem, addOrnamentItem, PRODUCT] <;> norm_num

/-! ## C10 — gesture commit on a line is a no-op -/

/-- C10: committing any resize gesture on a line item changes nothing —
for every scene, selection, gesture scales, if the committed node id
resolves to a line item the whole scene is returned unchanged. -/
theorem commitTransform_line_noop (items : List Item) (selectedId : Option String)
    (nodeId : String) (sX sY : ℚ) (it : Item) (x2 y2 : ℚ)
    (hfind : items.find? (fun i => i.id == nodeId) = some it)
    (hline : it.data = .line x2 y2) :
    commitTransform items selectedId nodeId sX sY = items := by
  unfold commitTransform
  rw [hfind]
  simp [hline]

/-- Witness for C10: a one-line scene, gesture scales (2, 3). -/
theorem commitTransform_line_noop_w :
    commitTransform [addLineItem "l"] (some "l") "l" 2 3 = [addLineItem "l"] :=
  commitTransform_line_noop _ _ _ _ _ (addLineItem "l")
    (PRODUCT.engraveMm.x + 90) (PRODUCT.engraveMm.y + 60) rfl rfl

/-! ## C5 — rectangle gesture commit -/

/-- C5: committing a resize gesture (sX, sY) on a rectangle item sets its
width to clamp(w·sX, 1, 500) and its height to clamp(h·sY, 1, 500) with the
axes independent; every other attribute of the item — and every other item of
the scene — is unchanged. In particular 40·2 clamps to 80 and 20·0.5 to 10. -/
theorem commitTransform_rect_spec (pre post : List Item) (it : Item)
    (w h : ℚ) (fe : Bool) (f : Option String) (sX sY : ℚ)
    (hpre : ∀ j ∈ pre, (j.id == it.id) = false)
    (hpost : ∀ j ∈ post, (j.id == it.id) = false)
    (hdata : it.data = .rect w h fe f) :
    commitTransform (pre ++ it :: post) (some it.id) it.id sX sY
      = pre ++ { it with data := .rect (clamp (w * sX) 1 500) (clamp (h * sY) 1 500) fe f } :: post
    ∧ clamp ((40:ℚ) * 2) 1 500 = 80 ∧ clamp ((20:ℚ) * (1/2)) 1 500 = 10 :=
  ⟨commit_rect_eq pre post it w h fe f sX sY hpre hpost hdata,
   by norm_num [clamp], by norm_num [clamp]⟩

/-- Witness for C5: the default rectangle (w = 40, h = 20) in a one-item
scene, committed with scales (2, 1/2). -/
theorem commitTransform_rect_spec_w :
    commitTransform [addRectItem "r"] (some "r") "r" 2 (1/2)
      = [{ (addRectItem "r") with data := .rect (clamp (40 * 2) 1 500) (clamp (20 * (1/2)) 1 500) false (some BLACK) }]
    ∧ clamp ((40:ℚ) * 2) 1 500 = 80 ∧ clamp ((20:ℚ) * (1/2)) 1 500 = 10 :=
  commitTransform_rect_spec [] [] (addRectItem "r") 40 20 false (some BLACK) 2 (1/2)
    (by simp) (by simp) rfl

/-! ## C8 — committing with scale 1 after a prior commit is the identity -/

/-- C8: for every item variant, committing a gesture with scaleX = scaleY = 1
on an item whose sized attribute was produced by a prior gesture commit leaves
the scene unchanged: the prior commit stored a clamped value already inside
its bound interval, and re-clamping that value times 1 is the identity. -/
theorem commitTransform_idem_scale_one (pre post : List Item) (it : Item) (sX sY : ℚ)
    (hpre : ∀ j ∈ pre, (j.id == it.id) = false)
    (hpost : ∀ j ∈ post, (j.id == it.id) = false) :
    commitTransform (commitTransform (pre ++ it :: post) (some it.id) it.id sX sY)
        (some it.id) it.id 1 1
      = commitTransform (pre ++ it :: post) (some it.id) it.id sX sY := by
  cases hdata : it.data with
  | rect w h fe f =>
      rw [commit_rect_eq pre post it w h fe f sX sY hpre hpost hdata]
      refine (commit_rect_eq pre post
        { it with data := .rect (clamp (w * sX) 1 500) (clamp (h * sY) 1 500) fe f }
        (clamp (w * sX) 1 500) (clamp (h * sY) 1 500)
        fe f 1 1 hpre hpost rfl).trans ?_
      rw [clamp_clamp_one _ _ _ (by norm_num), clamp_clamp_one _ _ _ (by norm_num)]
  | circle r fe f =>
      rw [commit_circle_eq pre post it r fe f sX sY hpre hpost hdata]
      refine (commit_circle_eq pre post
        { it with data := .circle (clamp (r * max sX sY) 1 500) fe f }
        (clamp (r * max sX sY) 1 500)
        fe f 1 1 hpre hpost rfl).trans ?_
      rw [max_self, clamp_clamp_one _ _ _ (by norm_num)]
  | text t ff fs st al fl =>
      rw [commit_text_eq pre post it t ff fs st al fl sX sY hpre hpost hdata]
      refine (commit_text_eq pre post
        { it with data := .text t ff (clamp (fs * max sX sY) PRODUCT.minFontMm PRODUCT.maxFontMm) st al fl }
        t ff (clamp (fs * max sX sY) PRODUCT.minFontMm PRODUCT.maxFontMm)
        st al fl 1 1 hpre hpost rfl).trans ?_
      rw [max_self, clamp_clamp_one _ _ _ (by norm_num [PRODUCT])]
  | line x2 y2 =>
      have hfind := find?_middle pre post it it.id hpre (beq_self_eq_true _)
      rw [commit_line_eq _ _ _ sX sY it x2 y2 hfind hdata,
        commit_line_eq _ _ _ 1 1 it x2 y2 hfind hdata]
  | ornament k s =>
      rw [commit_ornament_eq pre post it k s sX sY hpre hpost hdata]
      refine (commit_ornament_eq pre post
        { it with data := .ornament k (clamp (s * max sX sY) 5 120) }
        k (clamp (s * max sX sY) 5 120)
        1 1 hpre hpost rfl).trans ?_
      rw [max_self, clamp_clamp_one _ _ _ (by norm_num)]

/-- Witness for C8: the default rectangle committed with scales (3, 5), then
re-committed with scales (1, 1). -/
theorem commitTransform_idem_scale_one_w :
    commitTransform (commitTransform [addRectItem "r"] (some "r") "r" 3 5) (some "r") "r" 1 1
      = commitTransform [addRectItem "r"] (some "r") "r" 3 5 :=
  commitTransform_idem_scale_one [] [] (addRectItem "r") 3 5 (by simp) (by simp)

/-! ## C3 — validator structure -/

theorem validateStep_eq (acc : List String) (it : Item) :
    validateStep acc it = acc ++ itemFindings it := by
  unfold validateStep itemFindings
  cases h : it.data with
  | text t ff fs st al fl =>
      by_cases hw : withinEngraveArea it <;> by_cases hf : fs < PRODUCT.minFontMm <;>
        simp [hw, hf]
  | rect w h fe f => by_cases hw : withinEngraveArea it <;> simp [hw]
  | circle r fe f => by_cases hw : withinEngraveArea it <;> simp [hw]
  | line x2 y2 => by_cases hw : withinEngraveArea it <;> simp [hw]
  | ornament k s => by_cases hw : withinEngraveArea it <;> simp [hw]

theorem validateAll_foldl (l : List Item) (init : List String) :
    l.foldl validateStep init = init ++ l.flatMap itemFindings := by
  induction l generalizing init with
  | nil => simp
  | cons it t ih =>
      rw [List.foldl_cons, validateStep_eq, ih, List.flatMap_cons, List.append_assoc]

/-- C3: `validateAll` returns ok exactly when its problem list is empty, and
the problem list is the in-order concatenation over the whole scene of each
item's findings — the containment finding, then (independently) the
minimum-font finding — so no item is skipped and no check short-circuits; a
text item that is both out of bounds and below the minimum font contributes
exactly its two findings in order. (The embedding is a pure function of the
item list: the scene is never mutated.) -/
theorem validateAll_spec (items : List Item) :
    ((validateAll items).ok = true ↔ (validateAll items).problems = [])
    ∧ (validateAll items).problems = items.flatMap itemFindings
    ∧ (∀ (it : Item) (t ff : String) (fs : ℚ) (st : FontStyle) (al : Align) (fl : Option String),
        it.data = .text t ff fs st al fl → withinEngraveArea it = false →
        fs < PRODUCT.minFontMm →
        itemFindings it = ["Prvek mimo gravírovací plochu (typ=text).",
          "Text je příliš malý (min 3 mm)."]) := by
  refine ⟨?_, ?_, ?_⟩
  · simp [validateAll, List.length_eq_zero]
  · simp only [validateAll, validateAll_foldl, List.nil_append]
  · intro it t ff fs st al fl hdata hw hf
    unfold itemFindings
    simp only [hdata, hw, ItemData.typeStr, if_neg, Bool.false_eq_true, if_pos hf,
      if_false]
    rfl

/-- Witness for C3: a one-item scene holding a text item that is both outside
the bounds and below the minimum font size. -/
theorem validateAll_spec_w :
    (validateAll [badText]).problems = [badText].flatMap itemFindings
    ∧ itemFindings badText = ["Prvek mimo gravírovací plochu (typ=text).",
        "Text je příliš malý (min 3 mm)."] :=
  ⟨(validateAll_spec [badText]).2.1,
   (validateAll_spec [badText]).2.2 badText "hi" "Arial" 2 .normal .left none rfl
     (by simp [withinEngraveArea, badText, PRODUCT]; norm_num) (by norm_num [PRODUCT])⟩

/-! ## C1 — containment check vs. the spec's per-variant conditions -/

/-- C1 counterexample: as stated ("a Rectangle requires both (x,y) and
(x+w,y+h) within bounds"), the claim fails on the code for a rectangle of
negative width at x = ax1: `withinEngraveArea` checks only `x ≥ ax1` and
`x + w ≤ ax2`, so it accepts the item although its second corner
x + w = 65 lies outside the legal bounds. -/
theorem withinEngraveArea_negWidth_cex :
    withinEngraveArea rectNegW = true ∧ ¬ specContained rectNegW := by
  constructor
  · simp [withinEngraveArea, rectNegW, PRODUCT]
    norm_num
  · simp [specContained, rectNegW, PRODUCT]
    norm_num

/-- C1 (amended): for every item whose size attributes are nonnegative
(rectangle width/height, circle radius, ornament scale — always the case for
items the UI produces), the containment check accepts exactly when the
variant-specific condition over the legal bounds holds, all comparisons
inclusive: Text — anchor within bounds; Rectangle — both corners within
bounds; Circle — the full disc within bounds; Line — the bounding box of the
endpoints within bounds; Ornament — anchor and anchor + scale within bounds.
(Without the nonnegativity restriction the code checks only the lower bounds
of the first corner and the upper bounds of the second.) In particular the
boundary rectangle with corner exactly at (ax1, ay1) is valid and the same
rectangle moved 0.01 mm outward is invalid. -/
theorem withinEngraveArea_amended (it : Item) (hsz : nonnegSize it) :
    (withinEngraveArea it = true ↔ specContained it)
    ∧ withinEngraveArea rectAtCorner = true
    ∧ withinEngraveArea rectNudgedOut = false := by
  refine ⟨?_, ?_, ?_⟩
  · cases hdata : it.data with
    | text t ff fs st al fl =>
        simp only [nonnegSize, hdata] at hsz
        simp only [withinEngraveArea, specContained, hdata, Bool.and_eq_true,
          decide_eq_true_eq, ge_iff_le, and_assoc]
        constructor
        · rintro ⟨h1, h2, h3, h4⟩
          exact ⟨h1, h3, h2, h4⟩
        · rintro ⟨k1, k2, k3, k4⟩
          exact ⟨k1, k3, k2, k4⟩
    | rect w h fe f =>
        simp only [nonnegSize, hdata] at hsz
        obtain ⟨hw, hh⟩ := hsz
        simp only [withinEngraveArea, specContained, hdata, Bool.and_eq_true,
          decide_eq_true_eq, ge_iff_le, and_assoc]
        constructor
        · rintro ⟨h1, h2, h3, h4⟩
          exact ⟨h1, by linarith, h2, by linarith, by linarith, h3, by linarith, h4⟩
        · rintro ⟨k1, k2, k3, k4, m1, m2, m3, m4⟩
          exact ⟨k1, k3, m2, m4⟩
    | circle r fe f =>
        simp only [nonnegSize, hdata] at hsz
        simp only [withinEngraveArea, specContained, hdata, Bool.and_eq_true,
          decide_eq_true_eq, ge_iff_le, and_assoc]
        constructor
        · rintro ⟨h1, h2, h3, h4⟩
          exact ⟨h1, by linarith, h2, by linarith, by linarith, h3, by linarith, h4⟩
        · rintro ⟨k1, k2, k3, k4, m1, m2, m3, m4⟩
          exact ⟨k1, k3, m2, m4⟩
    | line x2 y2 =>
        have hx : min it.x x2 ≤ max it.x x2 := min_le_max
        have hy : min it.y y2 ≤ max it.y y2 := min_le_max
        simp only [withinEngraveArea, specContained, hdata, Bool.and_eq_true,
          decide_eq_true_eq, ge_iff_le, and_assoc]
        constructor
        · rintro ⟨h1, h2, h3, h4⟩
          exact ⟨h1, by linarith, h2, by linarith, by linarith, h3, by linarith, h4⟩
        · rintro ⟨k1, k2, k3, k4, m1, m2, m3, m4⟩
          exact ⟨k1, k3, m2, m4⟩
    | ornament k s =>
        simp only [nonnegSize, hdata] at hsz
        simp only [withinEngraveArea, specContained, hdata, Bool.and_eq_true,
          decide_eq_true_eq, ge_iff_le, and_assoc]
        constructor
        · rintro ⟨h1, h2, h3, h4⟩
          exact ⟨h1, by linarith, h2, by linarith, by linarith, h3, by linarith, h4⟩
        · rintro ⟨k1, k2, k3, k4, m1, m2, m3, m4⟩
          exact ⟨k1, k3, m2, m4⟩
  · simp [withinEngraveArea, rectAtCorner, PRODUCT]
    norm_num
  · simp [withinEngraveArea, rectNudgedOut, PRODUCT]
    norm_num

/-- Witness for C1 at the boundary rectangle. -/
theorem withinEngraveArea_amended_w :
    (withinEngraveArea rectAtCorner = true ↔ specContained rectAtCorner)
    ∧ withinEngraveArea rectAtCorner = true
    ∧ withinEngraveArea rectNudgedOut = false :=
  withinEngraveArea_amended rectAtCorner (by constructor <;> norm_num [nonnegSize, rectAtCorner])

/-! ## C4 — markup escaping -/

theorem escapeXmlL_append (a b : List Char) :
    escapeXmlL (a ++ b) = escapeXmlL a ++ escapeXmlL b := by
  simp [escapeXmlL, replaceAllCh, List.flatMap_append]

theorem escapeXmlL_single (c : Char) : escapeXmlL [c] = escChar c := by
  by_cases h1 : c = '&'
  · subst h1; decide
  · by_cases h2 : c = '<'
    · subst h2; decide
    · by_cases h3 : c = '>'
      · subst h3; decide
      · by_cases h4 : c = '"'
        · subst h4; decide
        · by_cases h5 : c = apos
          · subst h5; decide
          · simp [escapeXmlL, replaceAllCh, escChar, h1, h2, h3, h4, h5]

theorem escapeXmlL_eq_flatMap (l : List Char) : escapeXmlL l = l.flatMap escChar := by
  induction l with
  | nil => rfl
  | cons c t ih =>
      have hsplit : escapeXmlL (c :: t) = escapeXmlL [c] ++ escapeXmlL t := by
        rw [← escapeXmlL_append]
        rfl
      rw [hsplit, escapeXmlL_single, ih, List.flatMap_cons]

theorem escChar_no_raw (a : Char) :
    ∀ c ∈ escChar a, c ≠ '<' ∧ c ≠ '>' ∧ c ≠ '"' ∧ c ≠ apos := by
  by_cases h1 : a = '&'
  · subst h1; decide
  · by_cases h2 : a = '<'
    · subst h2; decide
    · by_cases h3 : a = '>'
      · subst h3; decide
      · by_cases h4 : a = '"'
        · subst h4; decide
        · by_cases h5 : a = apos
          · subst h5; decide
          · intro c hc
            simp [escChar, h1, h2, h3, h4, h5] at hc
            subst hc
            exact ⟨h2, h3, h4, h5⟩

theorem wellEscaped_append_escChar (c : Char) (t : List Char)
    (h : wellEscaped t = true) : wellEscaped (escChar c ++ t) = true := by
  by_cases h1 : c = '&'
  · subst h1
    show wellEscaped ('&' :: 'a' :: 'm' :: 'p' :: ';' :: t) = true
    unfold wellEscaped
    simp [List.isPrefixOf, h]
  · by_cases h2 : c = '<'
    · subst h2
      show wellEscaped ('&' :: 'l' :: 't' :: ';' :: t) = true
      unfold wellEscaped
      simp [List.isPrefixOf, h]
    · by_cases h3 : c = '>'
      · subst h3
        show wellEscaped ('&' :: 'g' :: 't' :: ';' :: t) = true
        unfold wellEscaped
        simp [List.isPrefixOf, h]
      · by_cases h4 : c = '"'
        · subst h4
          show wellEscaped ('&' :: 'q' :: 'u' :: 'o' :: 't' :: ';' :: t) = true
          unfold wellEscaped
          simp [List.isPrefixOf, h]
        · by_cases h5 : c = apos
          · subst h5
            show wellEscaped ('&' :: 'a' :: 'p' :: 'o' :: 's' :: ';' :: t) = true
            unfold wellEscaped
            simp [List.isPrefixOf, h]
          · show wellEscaped ((if c = '&' then "&amp;".toList
              else if c = '<' then "&lt;".toList
              else if c = '>' then "&gt;".toList
              else if c = '"' then "&quot;".toList
              else if c = apos then "&apos;".toList
              else [c]) ++ t) = true
            simp only [h1, h2, h3, h4, h5, if_false, List.cons_append, List.nil_append]
            unfold wellEscaped
            simp [h1, h2, h3, h4, h5, h]

theorem wellEscaped_flatMap (l : List Char) : wellEscaped (l.flatMap escChar) = true := by
  induction l with
  | nil =>
      show wellEscaped [] = true
      unfold wellEscaped
      rfl
  | cons c t ih =>
      rw [List.flatMap_cons]
      exact wellEscaped_append_escChar c _ ih

/-- C4: the chained five-step replacement (ampersands first) equals one
single left-to-right pass mapping each reserved character to its entity, so
characters introduced by earlier replacements are never re-processed; the
output contains no occurrence of the characters < > " ', and every ampersand
in the output starts one of the five entities (no raw reserved character
remains); the function is total on all strings, so escaping never fails. -/
theorem escapeXml_spec (s : String) :
    escapeXml s = (s.toList.flatMap escChar).asString
    ∧ (∀ c ∈ escapeXmlL s.toList, c ≠ '<' ∧ c ≠ '>' ∧ c ≠ '"' ∧ c ≠ apos)
    ∧ wellEscaped (escapeXmlL s.toList) = true := by
  refine ⟨congrArg List.asString (escapeXmlL_eq_flatMap _), ?_, ?_⟩
  · intro c hc
    rw [escapeXmlL_eq_flatMap, List.mem_flatMap] at hc
    obtain ⟨a, _, hca⟩ := hc
    exact escChar_no_raw a c hca
  · rw [escapeXmlL_eq_flatMap]
    exact wellEscaped_flatMap _

/-- Witness for C4 at the spec's example string. -/
theorem escapeXml_spec_w :
    escapeXml "5 < 10 & \"ok\"" = ("5 < 10 & \"ok\"".toList.flatMap escChar).asString
    ∧ wellEscaped (escapeXmlL "5 < 10 & \"ok\"".toList) = true
    ∧ ('&' ≠ '<' ∧ '&' ≠ '>' ∧ '&' ≠ '"' ∧ '&' ≠ apos)
    ∧ escapeXml "5 < 10 & \"ok\"" = "5 &lt; 10 &amp; &quot;ok&quot;" :=
  ⟨(escapeXml_spec _).1,
   (escapeXml_spec _).2.2,
   (escapeXml_spec "5 < 10 & \"ok\"").2.1 '&' (by decide),
   by decide⟩

/-! ## C9 — ornament export -/

/-- C9: for every ornament item the exporter emits exactly one path
primitive, whose outline is looked up in the fixed `ORNAMENTS` library for
its kind (the lookup always succeeds, matching the source's non-null
assertion), with `fill="none"` unconditionally and the transform
`translate(x y) scale(scaleMm/60)`; an ornament with scaleMm = 60 has scale
factor exactly 1, rendered as `scale(1)`. -/
theorem export_ornament_spec (it : Item) (kind : OrnamentKind) (scaleMm : ℚ)
    (hdata : it.data = .ornament kind scaleMm) :
    (ORNAMENTS.find? (fun o => o.kind == kind)).isSome = true
    ∧ exportItem it
      = [ "<path d=\"" ++ ((ORNAMENTS.find? (fun o => o.kind == kind)).getD
            { kind := kind, label := "", path := "" }).path
          ++ "\" fill=\"none\"" ++ swAttr it
          ++ " transform=\"translate(" ++ numStr it.x ++ " " ++ numStr it.y
          ++ ") scale(" ++ numStr (scaleMm / 60) ++ ")\" />" ]
    ∧ (scaleMm = 60 → scaleMm / 60 = 1 ∧ numStr (scaleMm / 60) = "1") := by
  refine ⟨?_, ?_, ?_⟩
  · cases kind <;> decide
  · simp [exportItem, hdata]
  · intro h60
    subst h60
    have h : (60:ℚ)/60 = 1 := by norm_num
    exact ⟨h, by rw [h]; rfl⟩

/-- Witness for C9: a heart ornament at (80, 50) with scaleMm = 60. -/
theorem export_ornament_spec_w :
    (ORNAMENTS.find? (fun o => o.kind == OrnamentKind.heart)).isSome = true
    ∧ exportItem ornWithRot
      = [ "<path d=\"" ++ ((ORNAMENTS.find? (fun o => o.kind == OrnamentKind.heart)).getD
            { kind := OrnamentKind.heart, label := "", path := "" }).path
          ++ "\" fill=\"none\"" ++ swAttr ornWithRot
          ++ " transform=\"translate(" ++ numStr ornWithRot.x ++ " " ++ numStr ornWithRot.y
          ++ ") scale(" ++ numStr ((60:ℚ) / 60) ++ ")\" />" ]
    ∧ ((60:ℚ) = 60 → (60:ℚ) / 60 = 1 ∧ numStr ((60:ℚ) / 60) = "1") :=
  export_ornament_spec ornWithRot .heart 60 rfl

/-! ## C2 — rotation transforms in the export -/

/-- C2 counterexample: an ornament with a rotation set does not get a
rotation transform in its emitted path element — the ornament branch of the
exporter omits the rotation attribute (its transform slot already holds the
translate/scale placement). The full element emitted for a rotated heart
ornament is shown; it contains no `rotate` substring. -/
theorem export_ornament_rotation_cex :
    ornWithRot.rotation = some 45 ∧ (45:ℚ) ≠ 0
    ∧ exportItem ornWithRot
      = ["<path d=\"M 10 30 C 10 10 30 10 30 20 C 30 10 50 10 50 30 C 50 45 30 55 30 55 C 30 55 10 45 10 30 Z\" fill=\"none\" transform=\"translate(80 50) scale(1)\" />"]
    ∧ hasSub "rotate".toList ("<path d=\"M 10 30 C 10 10 30 10 30 20 C 30 10 50 10 50 30 C 50 45 30 55 30 55 C 30 55 10 45 10 30 Z\" fill=\"none\" transform=\"translate(80 50) scale(1)\" />").toList = false := by
  refine ⟨rfl, by norm_num, ?_, by decide⟩
  have h : (60:ℚ)/60 = 1 := by norm_num
  have hsw : swAttr ornWithRot = "" := by norm_num [swAttr, ornWithRot]
  simp [exportItem, ornWithRot, ORNAMENTS, hsw, h]
  rfl

/-- C2 (amended): for every item whose rotation is present and nonzero, the
exporter emits the rotation transform `rotate(r x y)` about the item's own
anchor on Text and Rectangle primitives only; Circle, Line and Ornament
primitives never carry a rotation transform (their emitted element is
exactly the one of the same item with its rotation removed). -/
theorem export_rotation_amended (it : Item) (r : ℚ)
    (hrot : it.rotation = some r) (hnz : r ≠ 0) :
    (∀ t ff fs st al fl, it.data = .text t ff fs st al fl →
        ∃ pre suf, exportItem it = [pre ++ rotAttr it ++ suf]
          ∧ rotAttr it = " transform=\"rotate(" ++ numStr r ++ " " ++ numStr it.x
              ++ " " ++ numStr it.y ++ ")\"")
    ∧ (∀ w h fe f, it.data = .rect w h fe f →
        ∃ pre suf, exportItem it = [pre ++ rotAttr it ++ suf]
          ∧ rotAttr it = " transform=\"rotate(" ++ numStr r ++ " " ++ numStr it.x
              ++ " " ++ numStr it.y ++ ")\"")
    ∧ (∀ cr fe f, it.data = .circle cr fe f → exportItem it = exportItem (clearRotation it))
    ∧ (∀ x2 y2, it.data = .line x2 y2 → exportItem it = exportItem (clearRotation it))
    ∧ (∀ k s, it.data = .ornament k s → exportItem it = exportItem (clearRotation it)) := by
  have hra : rotAttr it = " transform=\"rotate(" ++ numStr r ++ " " ++ numStr it.x
      ++ " " ++ numStr it.y ++ ")\"" := by
    unfold rotAttr
    rw [hrot]
    simp [hnz]
  refine ⟨?_, ?_, ?_, ?_, ?_⟩
  · intro t ff fs st al fl hdata
    refine ⟨"<text x=\"" ++ numStr it.x ++ "\" y=\"" ++ numStr it.y
      ++ "\" font-family=\"" ++ escapeXml ff
      ++ "\" font-size=\"" ++ numStr fs
      ++ "\" font-style=\"" ++ (if st.includesItalic then "italic" else "normal")
      ++ "\" font-weight=\"" ++ (if st.includesBold then "bold" else "normal")
      ++ "\" text-anchor=\"" ++ al.anchor
      ++ "\"" ++ (" fill=\"" ++ fl.getD BLACK ++ "\"") ++ swAttr it,
      ">" ++ escapeXml t ++ "</text>", ?_, hra⟩
    simp [exportItem, hdata, String.append_assoc]
  · intro w h fe f hdata
    refine ⟨"<rect x=\"" ++ numStr it.x ++ "\" y=\"" ++ numStr it.y
      ++ "\" width=\"" ++ numStr w ++ "\" height=\"" ++ numStr h ++ "\""
      ++ (if fe then " fill=\"" ++ f.getD BLACK ++ "\"" else " fill=\"none\"") ++ swAttr it,
      " />", ?_, hra⟩
    simp [exportItem, hdata, String.append_assoc]
  · intro cr fe f hdata
    simp [exportItem, hdata, clearRotation, swAttr]
  · intro x2 y2 hdata
    simp [exportItem, hdata, clearRotation, swAttr]
  · intro k s hdata
    simp [exportItem, hdata, clearRotation, swAttr]

/-- Witness for C2: a rotated rectangle gets the rotate transform in its
emitted element; the rotated ornament exports exactly as it would with no
rotation. -/
theorem export_rotation_amended_w :
    (∃ pre suf, exportItem crectRot = [pre ++ rotAttr crectRot ++ suf]
      ∧ rotAttr crectRot = " transform=\"rotate(" ++ numStr (45:ℚ) ++ " "
          ++ numStr crectRot.x ++ " " ++ numStr crectRot.y ++ ")\"")
    ∧ exportItem ornWithRot = exportItem (clearRotation ornWithRot) :=
  ⟨(export_rotation_amended crectRot 45 rfl (by norm_num)).2.1 40 20 false none rfl,
   (export_rotation_amended ornWithRot 45 rfl (by norm_num)).2.2.2.2 .heart 60 rfl⟩

end Configurator
